import Mathlib

/-!
Formal model of the Secure Access & Ephemeral Sharing Engine of
cli-local-share, embedded shallowly from the Python sources
(`src/handler.py`, `src/security.py`, `src/state.py`,
`src/share_manager.py`).  Python strings are modelled as `List Char`
(one entry per Unicode code point), Python byte strings as `List Nat`
(one entry per byte, each < 256).  Wall-clock times are natural numbers
(seconds).  SHA-256 is treated as an abstract function parameter.
-/

namespace ShareCLI

/-- Python `str` (a sequence of Unicode code points). -/
abbrev PyStr := List Char

/-- Python `bytes` (a sequence of bytes). -/
abbrev PyBytes := List Nat

/-- Truthiness of an optional Python string: `None` and `""` are falsy. -/
def pyTruthy (o : Option PyStr) : Bool :=
  match o with
  | none => false
  | some s => !s.isEmpty

/-- `s.split(sep, 1)` unpacked into two variables: splits at the first
occurrence of `sep`; `none` models the `ValueError` raised when `sep`
does not occur. -/
def splitOnce (sep : Char) : PyStr → Option (PyStr × PyStr)
  | [] => none
  | c :: rest =>
    if c = sep then some ([], rest)
    else match splitOnce sep rest with
      | some (a, b) => some (c :: a, b)
      | none => none

/-- ASCII lowercasing of a character (models `str.lower` on the ASCII
range, which is all that the `'basic'` comparison can ever match). -/
def asciiLowerChar (c : Char) : Char :=
  if 'A' ≤ c ∧ c ≤ 'Z' then Char.ofNat (c.toNat + 32) else c

/-- ASCII lowercasing of a string. -/
def asciiLower (s : PyStr) : PyStr := s.map asciiLowerChar

/-- Python `needle in hay` substring test. -/
def pyContains (hay needle : PyStr) : Bool :=
  match hay with
  | [] => needle.isEmpty
  | _ :: t => needle.isPrefixOf hay || pyContains t needle

/-- Value of a base64 alphabet character, `none` for anything else. -/
def b64Val (c : Char) : Option Nat :=
  if 'A' ≤ c ∧ c ≤ 'Z' then some (c.toNat - 'A'.toNat)
  else if 'a' ≤ c ∧ c ≤ 'z' then some (c.toNat - 'a'.toNat + 26)
  else if '0' ≤ c ∧ c ≤ '9' then some (c.toNat - '0'.toNat + 52)
  else if c = '+' then some 62
  else if c = '/' then some 63
  else none

/-- Decode a filtered base64 character sequence four characters at a
time; `'='` padding is accepted in the final quadruple only. -/
def b64Groups : PyStr → Option PyBytes
  | [] => some []
  | a :: b :: c :: d :: rest =>
    match b64Val a, b64Val b with
    | some va, some vb =>
      if d = '=' then
        if rest ≠ [] then none
        else if c = '=' then
          if vb % 16 = 0 then some [va * 4 + vb / 16] else none
        else match b64Val c with
          | some vc =>
            if vc % 4 = 0 then some [va * 4 + vb / 16, vb % 16 * 16 + vc / 4]
            else none
          | none => none
      else
        match b64Val c, b64Val d with
        | some vc, some vd =>
          match b64Groups rest with
          | some tail =>
            some ((va * 4 + vb / 16) :: (vb % 16 * 16 + vc / 4) ::
                  (vc % 4 * 64 + vd) :: tail)
          | none => none
        | _, _ => none
    | _, _ => none
  | _ => none

/-- Model of `base64.b64decode` applied to an `str` argument: the
argument must be ASCII; characters outside the alphabet and padding are
discarded, then the remainder is decoded (length errors give `none`,
modelling `binascii.Error`). -/
def b64decode (s : PyStr) : Option PyBytes :=
  if s.all (fun c => c.toNat < 128) then
    b64Groups (s.filter (fun c => (b64Val c).isSome || c = '='))
  else none

/-- Is `b` a UTF-8 continuation byte? -/
def utf8Cont (b : Nat) : Bool := 128 ≤ b && b < 192

/-- Strict UTF-8 decoding of a byte sequence (models
`bytes.decode('utf-8')`; `none` models `UnicodeDecodeError`).
Overlong encodings, surrogates and out-of-range code points are
rejected, as CPython does. -/
def utf8Decode : PyBytes → Option PyStr
  | [] => some []
  | b :: bs =>
    if b < 128 then
      match utf8Decode bs with
      | some cs => some (Char.ofNat b :: cs)
      | none => none
    else if 192 ≤ b ∧ b < 224 then
      match bs with
      | b1 :: rest =>
        if utf8Cont b1 then
          let cp := (b - 192) * 64 + (b1 - 128)
          if 128 ≤ cp then
            match utf8Decode rest with
            | some cs => some (Char.ofNat cp :: cs)
            | none => none
          else none
        else none
      | [] => none
    else if 224 ≤ b ∧ b < 240 then
      match bs with
      | b1 :: b2 :: rest =>
        if utf8Cont b1 && utf8Cont b2 then
          let cp := (b - 224) * 4096 + (b1 - 128) * 64 + (b2 - 128)
          if 2048 ≤ cp ∧ ¬(55296 ≤ cp ∧ cp < 57344) then
            match utf8Decode rest with
            | some cs => some (Char.ofNat cp :: cs)
            | none => none
          else none
        else none
      | _ => none
    else if 240 ≤ b ∧ b < 245 then
      match bs with
      | b1 :: b2 :: b3 :: rest =>
        if utf8Cont b1 && utf8Cont b2 && utf8Cont b3 then
          let cp := (b - 240) * 262144 + (b1 - 128) * 4096 +
                    (b2 - 128) * 64 + (b3 - 128)
          if 65536 ≤ cp ∧ cp ≤ 1114111 then
            match utf8Decode rest with
            | some cs => some (Char.ofNat cp :: cs)
            | none => none
          else none
        else none
      | _ => none
    else none

/-! ## Authenticator (`SecureAuthHandler.check_auth`, handler.py 505-536) -/

/-- The tri-state result of `check_auth` (returned as 1 / 0 / 2 in the
source). -/
inductive AuthOutcome where
  | success
  | failed
  | noCredentials
deriving DecidableEq

/-- The `try` block of `check_auth`: `auth_header.split(' ', 1)`, the
`'basic'` scheme check, `base64.b64decode(...).decode('utf-8')` and
`decoded.split(':', 1)`.  `none` models any exception (caught by the
bare `except`). -/
def parseBasic (hdr : PyStr) : Option (PyStr × PyStr) :=
  match splitOnce ' ' hdr with
  | none => none
  | some (authType, authData) =>
    if asciiLower authType ≠ "basic".data then none
    else match b64decode authData with
      | none => none
      | some bytes =>
        match utf8Decode bytes with
        | none => none
        | some decoded => splitOnce ':' decoded

/-- `if self.auth_password and password == self.auth_password` — a
configured secret matches only when it is truthy and equal. -/
def matchesSecret (cfg : Option PyStr) (pw : PyStr) : Bool :=
  match cfg with
  | none => false
  | some v => !v.isEmpty && pw = v

/-- `check_auth` (handler.py 505-536), with the integer results 1 / 0 / 2
rendered as `AuthOutcome.success` / `.failed` / `.noCredentials`. -/
def check_auth (authPassword authToken : Option PyStr)
    (authHeader : Option PyStr) : AuthOutcome :=
  if !(pyTruthy authPassword || pyTruthy authToken) then .success
  else match authHeader with
    | none => .noCredentials
    | some hdr =>
      match parseBasic hdr with
      | none => .failed
      | some (_username, password) =>
        if matchesSecret authPassword password then .success
        else if matchesSecret authToken password then .success
        else .failed

/-! ## Attempt tracker (`state.py`, `security.py`) -/

/-- `MAX_FAILED_ATTEMPTS` (state.py). -/
def MAX_FAILED_ATTEMPTS : Nat := 5

/-- `BLOCK_DURATION_SECONDS` (state.py). -/
def BLOCK_DURATION_SECONDS : Nat := 300

/-- The shared state (`FAILED_ATTEMPTS` defaultdict and `BLOCKED_IPS`
dict of state.py), modelled as total maps; `failed` defaults to 0
exactly as `defaultdict(int)` does. -/
structure TrackerState where
  failed : PyStr → Nat
  blocked : PyStr → Option Nat

/-- `is_ip_blocked` (security.py 41-51): returns whether the IP is
actively blocked and, on an expired block, lazily deletes the entry and
resets the failure counter to 0. -/
def is_ip_blocked (s : TrackerState) (ip : PyStr) (now : Nat) :
    Bool × TrackerState :=
  match s.blocked ip with
  | none => (false, s)
  | some t =>
    if now < t then (true, s)
    else
      (false,
       { failed := fun x => if x = ip then 0 else s.failed x,
         blocked := fun x => if x = ip then none else s.blocked x })

/-- `record_failed_attempt` (security.py 54-74): increments the failure
counter and installs a block once the threshold is reached. -/
def record_failed_attempt (s : TrackerState) (ip : PyStr) (now : Nat) :
    TrackerState :=
  let f := s.failed ip + 1
  if MAX_FAILED_ATTEMPTS ≤ f then
    { failed := fun x => if x = ip then f else s.failed x,
      blocked := fun x => if x = ip then some (now + BLOCK_DURATION_SECONDS)
                          else s.blocked x }
  else
    { failed := fun x => if x = ip then f else s.failed x,
      blocked := s.blocked }

/-- Outcome of the security gate at the top of `do_GET` / `do_POST`. -/
inductive GateResult where
  | allowed
  | blockedResp
  | authFailedPage
  | challenge
deriving DecidableEq

/-- The common security gate of `do_POST` (handler.py 200-226) and
`do_GET` (handler.py 2170-2360): check credentials first; on success
clear any block and reset the failure count; otherwise consult
`is_ip_blocked`, then either record the failure (wrong secret) or just
challenge (no credentials). -/
def authGate (authPassword authToken : Option PyStr) (s : TrackerState)
    (ip : PyStr) (authHeader : Option PyStr) (now : Nat) :
    GateResult × TrackerState :=
  match check_auth authPassword authToken authHeader with
  | .success =>
    (.allowed,
     { failed := fun x => if x = ip then 0 else s.failed x,
       blocked := fun x => if x = ip then none else s.blocked x })
  | .failed =>
    let (b, s') := is_ip_blocked s ip now
    if b then (.blockedResp, s')
    else (.authFailedPage, record_failed_attempt s' ip now)
  | .noCredentials =>
    let (b, s') := is_ip_blocked s ip now
    if b then (.blockedResp, s') else (.challenge, s')

/-- Negation of `if not self.auth_password and not self.auth_token`:
some secret is configured. -/
def secretConfigured (pw tok : Option PyStr) : Bool :=
  pyTruthy pw || pyTruthy tok

/-- The IP has a block entry that has already expired (so the next
`is_ip_blocked` call will lazily clear it). -/
def blockExpired (s : TrackerState) (ip : PyStr) (now : Nat) : Bool :=
  match s.blocked ip with
  | some t => decide (t ≤ now)
  | none => false

/-- The IP has a block entry that is still in force. -/
def blockActive (s : TrackerState) (ip : PyStr) (now : Nat) : Bool :=
  match s.blocked ip with
  | some t => decide (now < t)
  | none => false

/-! ## Share Link Manager (`share_manager.py`)

The SQLite table `share_links` is modelled as a list of records (rows
in insertion order); `token` carries a `UNIQUE` constraint in the
schema, which appears below as a `Pairwise` hypothesis where needed.
`hashlib.sha256(...).hexdigest()` is modelled by an abstract function
argument `h : PyStr → PyStr`. -/

/-- One row of the `share_links` table. -/
structure ShareRec where
  token : PyStr
  file_path : PyStr
  file_name : PyStr
  created_at : Nat
  expires_at : Nat
  max_downloads : Nat
  download_count : Nat
  pin_hash : Option PyStr
  creator_ip : Option PyStr
  revoked : Bool
deriving DecidableEq

/-- The share-link store: the rows of the table, oldest first. -/
abbrev Store := List ShareRec

/-- Split a list at the last occurrence of `c` (the occurrence itself is
dropped); `none` when `c` does not occur. -/
def splitLastChar (c : Char) : List Char → Option (List Char × List Char)
  | [] => none
  | x :: xs =>
    match splitLastChar c xs with
    | some (a, b) => some (x :: a, b)
    | none => if x = c then some ([], xs) else none

/-- `os.path.basename` (POSIX): the part after the last `'/'`. -/
def pyBasename (p : PyStr) : PyStr :=
  match splitLastChar '/' p with
  | none => p
  | some (_, tail) => tail

/-- Result of `generate_share_link` (the returned dict: token, display
name, expiry, limit and a has-PIN flag — and nothing else). -/
structure MintResult where
  token : PyStr
  file_name : PyStr
  expires_at : Nat
  max_downloads : Nat
  has_pin : Bool
deriving DecidableEq

/-- `generate_share_link` (share_manager.py 44-88).  The random token
from `secrets.token_urlsafe(24)` and the current time enter as
parameters; `expiry_hours` is converted to seconds.  Hashes the PIN
when one is given (Python truthiness: `if pin:`), inserts the row, and
returns the public fields (`'has_pin': pin is not None`). -/
def generate_share_link (h : PyStr → PyStr) (store : Store)
    (file_path : PyStr) (expiry_hours : Nat) (max_downloads : Nat)
    (pin : Option PyStr) (creator_ip : Option PyStr)
    (token : PyStr) (now : Nat) : Store × MintResult :=
  let expires_at := now + expiry_hours * 3600
  let pin_hash : Option PyStr :=
    match pin with
    | some p => if p.isEmpty then none else some (h p)
    | none => none
  let file_name := pyBasename file_path
  (store ++ [{ token := token, file_path := file_path,
               file_name := file_name, created_at := now,
               expires_at := expires_at, max_downloads := max_downloads,
               download_count := 0, pin_hash := pin_hash,
               creator_ip := creator_ip, revoked := false }],
   { token := token, file_name := file_name, expires_at := expires_at,
     max_downloads := max_downloads, has_pin := pin.isSome })

/-- The four shapes of dictionary that `validate_link` can return
(`None`, `{'requires_pin': ...}`, `{'pin_invalid': ...}` and the valid
link info). -/
inductive ValidateResult where
  | inactive
  | requiresPin (file_name : PyStr)
  | invalidPin
  | active (file_path file_name : PyStr) (download_count max_downloads : Nat)
deriving DecidableEq

/-- `validate_link` (share_manager.py 90-136).  The SQL
`SELECT * ... WHERE token = ? AND revoked = 0` with `fetchone` is the
first list element satisfying both conditions. -/
def validate_link (h : PyStr → PyStr) (store : Store) (token : PyStr)
    (pin : Option PyStr) (now : Nat) : ValidateResult :=
  match store.find? (fun r => r.token = token && !r.revoked) with
  | none => .inactive
  | some row =>
    if now > row.expires_at then .inactive
    else if row.max_downloads > 0 ∧ row.download_count ≥ row.max_downloads
      then .inactive
    else
      match row.pin_hash with
      | some ph =>
        if ph.isEmpty then
          .active row.file_path row.file_name row.download_count
            row.max_downloads
        else if !pyTruthy pin then .requiresPin row.file_name
        else if h (pin.getD []) ≠ ph then .invalidPin
        else .active row.file_path row.file_name row.download_count
          row.max_downloads
      | none =>
        .active row.file_path row.file_name row.download_count
          row.max_downloads

/-- The `UPDATE share_links SET download_count = download_count + 1
WHERE token = ?` statement: bumps every row with the token. -/
def bumpDownload (store : Store) (token : PyStr) : Store :=
  store.map (fun r =>
    if r.token = token
    then { r with download_count := r.download_count + 1 } else r)

/-- The `UPDATE share_links SET revoked = 1 WHERE token = ?` statement:
marks every row with the token revoked. -/
def markRevoked (store : Store) (token : PyStr) : Store :=
  store.map (fun r =>
    if r.token = token then { r with revoked := true } else r)

/-- `increment_download` (share_manager.py 138-159): the first `UPDATE`
bumps the count; the follow-up `SELECT ... fetchone` reads the first
row with the token, and if its new count has reached a positive limit,
the second `UPDATE` sets `revoked = 1` in the same transaction. -/
def increment_download (store : Store) (token : PyStr) : Store :=
  match (bumpDownload store token).find? (fun r => r.token = token) with
  | some row =>
    if row.max_downloads > 0 ∧ row.download_count ≥ row.max_downloads then
      markRevoked (bumpDownload store token) token
    else bumpDownload store token
  | none => bumpDownload store token

/-- `revoke_link` (share_manager.py 194-210): marks every row with the
token revoked and returns `cursor.rowcount > 0`.  SQLite's `changes()`
counts every row matched by the `UPDATE`'s `WHERE` clause, whether or
not `revoked` already was 1, so the Boolean is "a row with this token
exists". -/
def revoke_link (store : Store) (token : PyStr) : Store × Bool :=
  (markRevoked store token, store.any (fun r => r.token = token))

/-- `cleanup_expired` (share_manager.py 212-229): deletes rows whose
expiry is more than the retention window (7 days) in the past, and
returns how many were deleted. -/
def cleanup_expired (store : Store) (now : Nat) : Store × Nat :=
  let keep := store.filter (fun r => ¬(r.expires_at < now - 7 * 86400))
  (keep, store.length - keep.length)

/-! ## Share-link download path (`do_GET`, handler.py 1893-1958) -/

/-- What the `/s/<token>` branch of `do_GET` sends back. -/
inductive ShareResponse where
  | expiredPage
  | pinPage (file_name : PyStr)
  | pinErrorPage
  | fileServed (file_name : PyStr)
  | notFoundPage
deriving DecidableEq

/-- The `/s/<token>` branch of `do_GET` (handler.py 1893-1958): validate
the link, render the PIN page / error pages as appropriate, and only on
a valid link whose file still exists call `increment_download` and serve
the file.  `fileExists` models `os.path.exists and os.path.isfile`. -/
def shareDownload (h : PyStr → PyStr) (store : Store) (token : PyStr)
    (pin : Option PyStr) (now : Nat) (fileExists : PyStr → Bool) :
    ShareResponse × Store :=
  match validate_link h store token pin now with
  | .inactive => (.expiredPage, store)
  | .requiresPin name => (.pinPage name, store)
  | .invalidPin => (.pinErrorPage, store)
  | .active fp fn _ _ =>
    if fileExists fp then (.fileServed fn, increment_download store token)
    else (.notFoundPage, store)

/-! ## Origin guard (`check_csrf`, handler.py 160-191) -/

/-- `check_csrf`: headers are passed as they come out of
`self.headers.get(...)` — `none` when absent, the (possibly empty)
value otherwise; `self.command` is the HTTP method. -/
def check_csrf (command : PyStr) (origin referer host : Option PyStr) : Bool :=
  if ¬(command = "POST".data ∨ command = "PUT".data ∨
       command = "DELETE".data) then true
  else if ¬pyTruthy origin ∧ ¬pyTruthy referer then true
  else if ¬pyTruthy host then false
  else if pyTruthy origin ∧ ¬pyContains (origin.getD []) (host.getD [])
    then false
  else if pyTruthy referer ∧ ¬pyContains (referer.getD []) (host.getD [])
    then false
  else true

/-! ## Upload target resolution (`get_upload_path`, handler.py 133-158) -/

/-- The allow-list of `secure_filename`:
`c.isalpha() or c.isdigit() or c in '._-'` (Unicode letters and digits
are modelled by the ASCII range; both sides of the approximation lie in
the allow-list, so nothing below depends on it). -/
def keepChar (c : Char) : Bool :=
  c.isAlpha || c.isDigit || c = '.' || c = '_' || c = '-'

/-- The inner `secure_filename` of `get_upload_path`. -/
def secure_filename (name : PyStr) : PyStr := name.filter keepChar

/-- `os.path.splitext` (CPython `genericpath._splitext`): split off the
extension at the last dot of the final path component, unless every
character of that component before the dot is itself a dot. -/
def pySplitext (p : PyStr) : PyStr × PyStr :=
  match splitLastChar '/' p with
  | none =>
    match splitLastChar '.' p with
    | none => (p, [])
    | some (a, b) =>
      if a.all (fun c => c = '.') then (p, [])
      else (a, '.' :: b)
  | some (d, name) =>
    match splitLastChar '.' name with
    | none => (p, [])
    | some (a, b) =>
      if a.all (fun c => c = '.') then (p, [])
      else (d ++ '/' :: a, '.' :: b)

/-- The anti-overwrite loop of `get_upload_path`:
`while os.path.exists(full_path): full_path = f"{base}_{counter}{ext}"`.
The filesystem is the list `fs` of existing paths; `fuel` bounds the
iteration (the Python loop terminates because `fs` is finite). -/
def dedupLoop (fs : List PyStr) (base ext : PyStr) :
    Nat → Nat → PyStr → Option PyStr
  | 0, _, _ => none
  | fuel + 1, counter, cur =>
    if cur ∈ fs then
      dedupLoop fs base ext fuel (counter + 1)
        (base ++ '_' :: (Nat.repr counter).data ++ ext)
    else some cur

/-- `get_upload_path` (handler.py 133-158).  `targetDir` is
`self.translate_path(self.path)` (normalised, no trailing slash), so
`os.path.join` inserts a single `'/'`; `isdirTarget` models
`os.path.isdir(target_dir)` and `fs` the set of existing paths for
`os.path.exists`. -/
def get_upload_path (fs : List PyStr) (isdirTarget : Bool)
    (targetDir : PyStr) (filename : PyStr) (fuel : Nat) : Option PyStr :=
  if (secure_filename (pyBasename filename)).isEmpty then none
  else if ¬isdirTarget then none
  else
    dedupLoop fs
      (pySplitext (targetDir ++ '/' ::
         secure_filename (pyBasename filename))).1
      (pySplitext (targetDir ++ '/' ::
         secure_filename (pyBasename filename))).2 fuel 1
      (targetDir ++ '/' :: secure_filename (pyBasename filename))

/-! ## Streaming multipart upload decoder (`do_POST`, handler.py 366-487)

The request body is the byte list `rest` of a `StreamState`; `bytesRead`
is the `bytes_read` accounting variable of the source.  The file sink is
modelled by accumulating the written bytes. -/

/-- Sub-list containment on bytes (`needle in hay`). -/
def bytesContains (hay needle : PyBytes) : Bool :=
  match hay with
  | [] => needle.isEmpty
  | _ :: t => needle.isPrefixOf hay || bytesContains t needle

/-- `buffer.split(sub, 1)`: the parts before and after the first
occurrence of `sub` (the whole list and `[]` when `sub` is absent). -/
def splitFirstSub [BEq α] (sub : List α) : List α → List α × List α
  | [] => ([], [])
  | x :: xs =>
    if sub.isPrefixOf (x :: xs) then ([], (x :: xs).drop sub.length)
    else
      let ab := splitFirstSub sub xs
      (x :: ab.1, ab.2)

/-- ASCII whitespace bytes (the set stripped by `bytes.strip()`). -/
def wsBytes : List Nat := [32, 9, 10, 13, 11, 12]

/-- `bytes.strip()`. -/
def pyStripBytes (l : PyBytes) : PyBytes :=
  ((l.dropWhile (· ∈ wsBytes)).reverse.dropWhile (· ∈ wsBytes)).reverse

/-- ASCII whitespace characters (the set stripped by `str.strip()`). -/
def wsChars : List Char := [' ', '\t', '\n', '\r', Char.ofNat 11, Char.ofNat 12]

/-- `str.strip()`. -/
def pyStripWs (l : PyStr) : PyStr :=
  ((l.dropWhile (· ∈ wsChars)).reverse.dropWhile (· ∈ wsChars)).reverse

/-- `str.strip(chars)`: strip the given characters from both ends. -/
def pyStripChars (set : List Char) (l : PyStr) : PyStr :=
  ((l.dropWhile (· ∈ set)).reverse.dropWhile (· ∈ set)).reverse

/-- `bytes.decode('utf-8', 'ignore')`: decode, skipping ill-formed
bytes. -/
def utf8DecodeIgnore : PyBytes → PyStr
  | [] => []
  | b :: bs =>
    if b < 128 then Char.ofNat b :: utf8DecodeIgnore bs
    else if 192 ≤ b ∧ b < 224 then
      match bs with
      | b1 :: rest =>
        if utf8Cont b1 ∧ 128 ≤ (b - 192) * 64 + (b1 - 128) then
          Char.ofNat ((b - 192) * 64 + (b1 - 128)) :: utf8DecodeIgnore rest
        else utf8DecodeIgnore (b1 :: rest)
      | [] => []
    else if 224 ≤ b ∧ b < 240 then
      match bs with
      | b1 :: b2 :: rest =>
        if utf8Cont b1 ∧ utf8Cont b2 ∧
           2048 ≤ (b - 224) * 4096 + (b1 - 128) * 64 + (b2 - 128) ∧
           ¬(55296 ≤ (b - 224) * 4096 + (b1 - 128) * 64 + (b2 - 128) ∧
             (b - 224) * 4096 + (b1 - 128) * 64 + (b2 - 128) < 57344) then
          Char.ofNat ((b - 224) * 4096 + (b1 - 128) * 64 + (b2 - 128)) ::
            utf8DecodeIgnore rest
        else utf8DecodeIgnore (b1 :: b2 :: rest)
      | l => utf8DecodeIgnore l
    else if 240 ≤ b ∧ b < 245 then
      match bs with
      | b1 :: b2 :: b3 :: rest =>
        if utf8Cont b1 ∧ utf8Cont b2 ∧ utf8Cont b3 ∧
           65536 ≤ (b - 240) * 262144 + (b1 - 128) * 4096 +
                   (b2 - 128) * 64 + (b3 - 128) ∧
           (b - 240) * 262144 + (b1 - 128) * 4096 +
                   (b2 - 128) * 64 + (b3 - 128) ≤ 1114111 then
          Char.ofNat ((b - 240) * 262144 + (b1 - 128) * 4096 +
                      (b2 - 128) * 64 + (b3 - 128)) :: utf8DecodeIgnore rest
        else utf8DecodeIgnore (b1 :: b2 :: b3 :: rest)
      | l => utf8DecodeIgnore l
    else utf8DecodeIgnore bs

/-- Dictionary assignment `d[k] = v` on an association list. -/
def assocSet (hs : List (PyStr × PyStr)) (k v : PyStr) :
    List (PyStr × PyStr) :=
  if hs.any (fun p => p.1 = k) then
    hs.map (fun p => if p.1 = k then (k, v) else p)
  else hs ++ [(k, v)]

/-- `d.get(k, default)` on an association list. -/
def assocGet (hs : List (PyStr × PyStr)) (k d : PyStr) : PyStr :=
  match hs.find? (fun p => p.1 = k) with
  | some p => p.2
  | none => d

/-- The unread part of `self.rfile` plus the `bytes_read` counter. -/
structure StreamState where
  rest : PyBytes
  bytesRead : Nat

/-- `self.rfile.readline()`: everything up to and including the next
newline byte (or to end of stream). -/
def readlineBytes : PyBytes → PyBytes × PyBytes
  | [] => ([], [])
  | b :: bs =>
    if b = 10 then ([b], bs)
    else
      let lr := readlineBytes bs
      (b :: lr.1, lr.2)

/-- `safe_readline` (handler.py 380-386): refuses to issue a read once
`content_length` bytes are accounted for, but the `readline` it issues
is itself unbounded. -/
def safe_readline (cl : Nat) (st : StreamState) : PyBytes × StreamState :=
  if st.bytesRead ≥ cl then ([], st)
  else
    let lr := readlineBytes st.rest
    (lr.1, ⟨lr.2, st.bytesRead + lr.1.length⟩)

/-- `safe_read` (handler.py 389-396): reads at most
`content_length - bytes_read` bytes. -/
def safe_read (cl size : Nat) (st : StreamState) : PyBytes × StreamState :=
  if st.bytesRead ≥ cl then ([], st)
  else
    let toRead := min size (cl - st.bytesRead)
    let chunk := st.rest.take toRead
    (chunk, ⟨st.rest.drop toRead, st.bytesRead + chunk.length⟩)

/-- The preamble loop (handler.py 398-401): read lines until one is
empty or contains the boundary. -/
def preambleLoop (cl : Nat) (bnd : PyBytes) :
    Nat → StreamState → StreamState
  | 0, st => st
  | fuel + 1, st =>
    let (line, st') := safe_readline cl st
    if line ≠ [] ∧ ¬bytesContains line bnd then preambleLoop cl bnd fuel st'
    else st'

/-- The header loop (handler.py 415-422): parse `key: value` lines into
the `headers` dict until an empty or bare-CRLF line. -/
def headerLoop (cl : Nat) :
    Nat → PyBytes → List (PyStr × PyStr) → StreamState →
    List (PyStr × PyStr) × StreamState
  | 0, _, hs, st => (hs, st)
  | fuel + 1, hline, hs, st =>
    if hline = [] ∨ hline = [13, 10] then (hs, st)
    else
      let lstr := utf8DecodeIgnore hline
      let hs' :=
        match splitOnce ':' lstr with
        | some (k, v) => assocSet hs (pyStripWs (asciiLower k)) (pyStripWs v)
        | none => hs
      let (nl, st') := safe_readline cl st
      headerLoop cl fuel nl hs' st'

/-- Drop a `b'\r\n'` or `b'\n'` line terminator from the end of the
part data (handler.py 452-456). -/
def stripTrailingNl (l : PyBytes) : PyBytes :=
  if [13, 10].isSuffixOf l then l.take (l.length - 2)
  else if [10].isSuffixOf l then l.take (l.length - 1)
  else l

/-- The body-streaming loop (handler.py 439-475): read 64 KiB chunks,
scan the look-ahead buffer for the boundary, write everything but a
`len(boundary) + 2` margin.  Returns the bytes written to the file. -/
def bodyLoop (cl : Nat) (bnd : PyBytes) :
    Nat → StreamState → PyBytes → PyBytes → PyBytes × StreamState
  | 0, st, _, written => (written, st)
  | fuel + 1, st, prev, written =>
    if st.bytesRead < cl then
      let (chunk, st') := safe_read cl 65536 st
      if chunk = [] then (written, st')
      else
        let buffer := prev ++ chunk
        if bytesContains buffer bnd then
          let pr := splitFirstSub bnd buffer
          (written ++ stripTrailingNl pr.1, st')
        else
          let margin := bnd.length + 2
          if buffer.length > margin then
            let writeLen := buffer.length - margin
            bodyLoop cl bnd fuel st' (buffer.drop writeLen)
              (written ++ buffer.take writeLen)
          else bodyLoop cl bnd fuel st' buffer written
    else (written, st)

/-- `s.split('filename=')[1].split(';')[0].strip('"').strip("'")`
(handler.py 430-431): the text between the first and second
`filename=`, cut at the first `';'`, with quotes stripped. -/
def extractFilename (disposition : PyStr) : PyStr :=
  let seg := (splitFirstSub "filename=".data disposition).2
  let seg1 := (splitFirstSub "filename=".data seg).1
  pyStripChars ['\''] (pyStripChars ['"'] ((splitOnce ';' seg1).getD (seg1, [])).1)

/-- The outcome of the streaming upload section of `do_POST`. -/
structure UploadResult where
  bytesRead : Nat
  uploaded : List PyStr
  written : PyBytes
  lengthError : Bool
deriving DecidableEq

/-- An `UploadResult` that read up to `st` and saved nothing. -/
def noUpload (st : StreamState) : UploadResult :=
  { bytesRead := st.bytesRead, uploaded := [], written := [],
    lengthError := false }

/-- The streaming upload parser of `do_POST` (handler.py 366-487),
entered with the boundary already extracted from the Content-Type
header.  A zero `Content-Length` is rejected before any read.  The
outer `while` executes its body at most once — every branch ends in
`break` — so it is modelled as a single conditional pass.
`resolvePath` is `self.get_upload_path`. -/
def parseUpload (cl : Nat) (bnd : PyBytes)
    (resolvePath : PyStr → Option PyStr) (stream : PyBytes)
    (fuel : Nat) : UploadResult :=
  if cl = 0 then
    { bytesRead := 0, uploaded := [], written := [], lengthError := true }
  else
    let st1 := preambleLoop cl bnd fuel ⟨stream, 0⟩
    if st1.bytesRead < cl then
      let (hline, st2) := safe_readline cl st1
      if hline = [] then noUpload st2
      else if pyStripBytes hline = bnd ++ [45, 45] then noUpload st2
      else
        let (headers, st3) := headerLoop cl fuel hline [] st2
        if headers = [] then noUpload st3
        else
          let disposition := assocGet headers "content-disposition".data []
          if pyContains disposition "filename=".data then
            let fname := extractFilename disposition
            if fname ≠ [] then
              match resolvePath fname with
              | some uploadPath =>
                let (written, st4) := bodyLoop cl bnd fuel st3 [] []
                { bytesRead := st4.bytesRead,
                  uploaded := [pyBasename uploadPath],
                  written := written, lengthError := false }
              | none => noUpload st3
            else noUpload st3
          else noUpload st3
    else noUpload st1

/-! ## Claim C1 — blocking and correct credentials -/

/-- Configuration used in the C1 scenario: a configured password. -/
def c1cfg : Option PyStr := some "pw".data

/-- Client IP of the C1 scenario. -/
def c1ip : PyStr := "1.2.3.4".data

/-- An Authorization header that fails to decode (wrong credentials). -/
def c1bad : Option PyStr := some "Basic x".data

/-- `Basic` credentials `u:pw` — the correct password. -/
def c1good : Option PyStr := some "Basic dTpwdw==".data

/-- Fresh tracker state (empty `FAILED_ATTEMPTS` / `BLOCKED_IPS`). -/
def c1s0 : TrackerState := { failed := fun _ => 0, blocked := fun _ => none }

/-- One failed request from `c1ip` at time 0. -/
def c1step (s : TrackerState) : TrackerState :=
  (authGate c1cfg none s c1ip c1bad 0).2

/-- Tracker state after five consecutive failures from `c1ip`. -/
def c1s5 : TrackerState := c1step (c1step (c1step (c1step (c1step c1s0))))

/-- C1 counterexample: after five failures the IP's counter is at the
threshold and its block window (until second 300) has not elapsed at
second 10, yet a request carrying the correct credentials is answered
`allowed` (the gate clears the block on auth success), not with the
blocked response the claim requires. -/
theorem c1_correct_creds_allowed_cex :
    c1s5.failed c1ip = 5 ∧ c1s5.blocked c1ip = some 300 ∧ (10 : Nat) < 300 ∧
    check_auth c1cfg none c1good = .success ∧
    (authGate c1cfg none c1s5 c1ip c1good 10).1 = .allowed ∧
    GateResult.allowed ≠ GateResult.blockedResp := by decide

/-- C1 (amended): while an IP's block window has not elapsed, every
request whose credential check is not a success is rejected with the
blocked response; a request with correct credentials is allowed and
clears both the block and the failure counter. -/
theorem c1_blocked_unless_success :
    (∀ pw tok s ip hdr now t, s.blocked ip = some t → now < t →
       check_auth pw tok hdr ≠ .success →
       (authGate pw tok s ip hdr now).1 = .blockedResp) ∧
    (∀ pw tok s ip hdr now, check_auth pw tok hdr = .success →
       (authGate pw tok s ip hdr now).1 = .allowed ∧
       (authGate pw tok s ip hdr now).2.blocked ip = none ∧
       (authGate pw tok s ip hdr now).2.failed ip = 0) := by
  constructor
  · intro pw tok s ip hdr now t hb hlt hne
    unfold authGate
    cases hc : check_auth pw tok hdr with
    | success => exact absurd hc hne
    | failed => simp [is_ip_blocked, hb, hlt]
    | noCredentials => simp [is_ip_blocked, hb, hlt]
  · intro pw tok s ip hdr now hc
    unfold authGate
    simp [hc]

/-- C1 witness: the amended theorem applied in the concrete five-failure
scenario. -/
theorem c1_blocked_unless_success_wit :
    (authGate c1cfg none c1s5 c1ip c1bad 10).1 = .blockedResp ∧
    (authGate c1cfg none c1s5 c1ip c1good 10).1 = .allowed :=
  ⟨c1_blocked_unless_success.1 c1cfg none c1s5 c1ip c1bad 10 300 (by decide)
     (by decide) (by decide),
   (c1_blocked_unless_success.2 c1cfg none c1s5 c1ip c1good 10 (by decide)).1⟩

/-! ## Claim C2 — revoke twice -/

/-- A live share-link row used in the C2 scenario. -/
def c2rec : ShareRec :=
  { token := "t".data, file_path := "/d/f".data, file_name := "f".data,
    created_at := 0, expires_at := 100, max_downloads := 0,
    download_count := 0, pin_hash := none, creator_ip := none,
    revoked := false }

/-- C2 counterexample: revoking an existing token twice returns `true`
both times — the second call does not return `false` as claimed,
because SQLite's `changes()` counts the matched row again. -/
theorem c2_second_revoke_true_cex :
    (revoke_link [c2rec] "t".data).2 = true ∧
    (revoke_link (revoke_link [c2rec] "t".data).1 "t".data).2 = true := by
  decide

/-- C2 (amended): for a token with an existing record, `revoke_link`
returns `true` on the first call and again `true` on the second (it
reports whether a record with the token exists, not whether the call
changed anything); the second call leaves the store unchanged, and the
link is inactive (`validate_link` returns `Inactive`) after the first
call. -/
theorem c2_revoke_idempotent :
    ∀ store tok pin now h, (∃ r ∈ store, r.token = tok) →
      (revoke_link store tok).2 = true ∧
      (revoke_link (revoke_link store tok).1 tok).2 = true ∧
      (revoke_link (revoke_link store tok).1 tok).1 =
        (revoke_link store tok).1 ∧
      validate_link h (revoke_link store tok).1 tok pin now = .inactive := by
  intro store tok pin now h hex
  obtain ⟨r, hr, hrt⟩ := hex
  refine ⟨?_, ?_, ?_, ?_⟩
  · simp only [revoke_link, List.any_eq_true]
    exact ⟨r, hr, by simp [hrt]⟩
  · simp only [revoke_link, markRevoked, List.any_map, List.any_eq_true]
    refine ⟨r, hr, ?_⟩
    by_cases hc : r.token = tok <;> simp [hc, hrt]
  · simp only [revoke_link, markRevoked, List.map_map]
    apply List.map_congr_left
    intro x _
    by_cases hc : x.token = tok <;> simp [hc]
  · unfold validate_link
    have : ((revoke_link store tok).1.find?
        (fun r => r.token = tok && !r.revoked)) = none := by
      rw [List.find?_eq_none]
      intro x hx
      simp only [revoke_link, markRevoked, List.mem_map] at hx
      obtain ⟨y, _, hy⟩ := hx
      by_cases hc : y.token = tok
      · subst hy; simp [hc]
      · subst hy; simp [hc]
    rw [this]

/-- C2 witness: the amended theorem applied to a one-record store. -/
theorem c2_revoke_idempotent_wit :
    (revoke_link [c2rec] "t".data).2 = true ∧
    validate_link (fun s => s) (revoke_link [c2rec] "t".data).1 "t".data
      none 0 = .inactive := by
  have h := c2_revoke_idempotent [c2rec] "t".data none 0 (fun s => s)
    ⟨c2rec, by decide, by decide⟩
  exact ⟨h.1, h.2.2.2⟩

/-! ## Claim C3 — reads bounded by Content-Length -/

/-- C3: the decoder does NOT stay within `Content-Length`: with
`content_length = 1` and a request stream starting with the three-byte
line `b"ab\n"`, the first `safe_readline` issues an unbounded
`readline` and 3 bytes are consumed — more than the declared 1.  The
guard only refuses to start a read after the budget is spent; an
individual `readline` can overrun it, contradicting the "never read
past `contentLength`" contract (and the source's own comments). -/
theorem c3_readline_overruns_content_length :
    (parseUpload 1 [45, 45, 66] (fun _ => none) [97, 98, 10] 5).bytesRead
      = 3 ∧
    ¬(parseUpload 1 [45, 45, 66] (fun _ => none) [97, 98, 10] 5).bytesRead
      ≤ 1 := by decide

/-! ## Claim C5 — auth tri-state and the failure counter -/

/-- C5 scenario IP. -/
def c5ip : PyStr := "9.9.9.9".data

/-- C5 scenario state: counter at 3, block expired at second 10. -/
def c5s : TrackerState :=
  { failed := fun x => if x = c5ip then 3 else 0,
    blocked := fun x => if x = c5ip then some 10 else none }

/-- Fresh tracker state for the C5 witness. -/
def c5s0 : TrackerState := { failed := fun _ => 0, blocked := fun _ => none }

/-- C5 counterexample: with a password configured, a request without an
`Authorization` header (outcome `NoCredentials`) from an IP whose block
has just expired CHANGES the failure counter — the lazy expiry inside
`is_ip_blocked` resets it from 3 to 0 — contradicting "a NoCredentials
outcome never changes the per-IP failure counter". -/
theorem c5_nocreds_resets_counter_cex :
    c5s.failed c5ip = 3 ∧
    check_auth (some "pw".data) none none = .noCredentials ∧
    (authGate (some "pw".data) none c5s c5ip none 10).2.failed c5ip = 0 ∧
    (0 : Nat) ≠ 3 := by decide

/-- C5 (amended): `check_auth` is `Success` whenever no secret is
configured; with a secret configured it is `NoCredentials` for a
missing header, `Failed` when the basic-auth pipeline fails, and
`Success` exactly when the decoded password matches a configured
secret.  A `NoCredentials` outcome never increments the counter — it
leaves it unchanged except for the lazy reset to 0 of an expired block
— and a `Failed` outcome for an IP without an active block increments
the (possibly lazily reset) counter by exactly one. -/
theorem c5_auth_tristate :
    (∀ pw tok hdr, secretConfigured pw tok = false →
       check_auth pw tok hdr = .success) ∧
    (∀ pw tok, secretConfigured pw tok = true →
       check_auth pw tok none = .noCredentials) ∧
    (∀ pw tok hdr, secretConfigured pw tok = true → parseBasic hdr = none →
       check_auth pw tok (some hdr) = .failed) ∧
    (∀ pw tok hdr u p, secretConfigured pw tok = true →
       parseBasic hdr = some (u, p) →
       check_auth pw tok (some hdr) =
         (if matchesSecret pw p || matchesSecret tok p then .success
          else .failed)) ∧
    (∀ pw tok s ip hdr now, check_auth pw tok hdr = .noCredentials →
       (authGate pw tok s ip hdr now).2.failed ip =
         (if blockExpired s ip now then 0 else s.failed ip)) ∧
    (∀ pw tok s ip hdr now, check_auth pw tok hdr = .failed →
       blockActive s ip now = false →
       (authGate pw tok s ip hdr now).2.failed ip =
         (if blockExpired s ip now then 0 else s.failed ip) + 1) := by
  refine ⟨?_, ?_, ?_, ?_, ?_, ?_⟩
  · intro pw tok hdr hs
    simp only [secretConfigured] at hs
    simp [check_auth, hs]
  · intro pw tok hs
    simp only [secretConfigured] at hs
    simp [check_auth, hs]
  · intro pw tok hdr hs hp
    simp only [secretConfigured] at hs
    simp [check_auth, hs, hp]
  · intro pw tok hdr u p hs hp
    simp only [secretConfigured] at hs
    simp only [check_auth, hs, hp, Bool.not_true, Bool.false_eq_true,
      if_false]
    by_cases m1 : matchesSecret pw p <;> by_cases m2 : matchesSecret tok p <;>
      simp [m1, m2]
  · intro pw tok s ip hdr now hc
    unfold authGate
    rw [hc]
    cases hb : s.blocked ip with
    | none => simp [is_ip_blocked, hb, blockExpired]
    | some t =>
      by_cases hlt : now < t
      · have : ¬t ≤ now := by omega
        simp [is_ip_blocked, hb, hlt, blockExpired, this]
      · have : t ≤ now := by omega
        simp [is_ip_blocked, hb, hlt, blockExpired, this]
  · intro pw tok s ip hdr now hc hba
    unfold authGate
    rw [hc]
    cases hb : s.blocked ip with
    | none =>
      simp [is_ip_blocked, hb, blockExpired, record_failed_attempt]
      split <;> simp
    | some t =>
      have hnlt : ¬now < t := by
        intro hlt
        simp [blockActive, hb, hlt] at hba
      have hle : t ≤ now := by omega
      simp [is_ip_blocked, hb, hnlt, blockExpired, decide_eq_true hle,
        record_failed_attempt]
      split <;> simp

/-- C5 witness: each amended conjunct at a concrete input. -/
theorem c5_auth_tristate_wit :
    check_auth none none none = .success ∧
    check_auth (some "pw".data) none none = .noCredentials ∧
    check_auth (some "pw".data) none (some "Basic x".data) = .failed ∧
    check_auth (some "pw".data) none (some "Basic dTpwdw==".data)
      = .success ∧
    (authGate (some "pw".data) none c5s0 c5ip none 0).2.failed c5ip = 0 ∧
    (authGate (some "pw".data) none c5s0 c5ip (some "Basic x".data) 0).2.failed
      c5ip = 1 := by
  refine ⟨c5_auth_tristate.1 none none none (by decide),
          c5_auth_tristate.2.1 (some "pw".data) none (by decide),
          c5_auth_tristate.2.2.1 (some "pw".data) none "Basic x".data
            (by decide) (by decide), ?_, ?_, ?_⟩
  · exact (c5_auth_tristate.2.2.2.1 (some "pw".data) none
      "Basic dTpwdw==".data "u".data "pw".data (by decide)
      (by decide)).trans (by decide)
  · exact (c5_auth_tristate.2.2.2.2.1 (some "pw".data) none c5s0 c5ip none 0
      (by decide)).trans (by decide)
  · exact (c5_auth_tristate.2.2.2.2.2 (some "pw".data) none c5s0 c5ip
      (some "Basic x".data) 0 (by decide) (by decide)).trans (by decide)

/-! ## Claim C10 — the username is ignored -/

/-- C10: with a secret configured, whenever the basic-auth pipeline
decodes the header into `(username, password)`, authentication succeeds
if and only if the password part equals a configured (truthy) password
or access token — for every username. -/
theorem c10_username_ignored :
    ∀ pw tok hdr u p, secretConfigured pw tok = true →
      parseBasic hdr = some (u, p) →
      (check_auth pw tok (some hdr) = .success ↔
        (matchesSecret pw p || matchesSecret tok p) = true) := by
  intro pw tok hdr u p hs hp
  simp only [secretConfigured] at hs
  simp only [check_auth, hs, hp, Bool.not_true, Bool.false_eq_true, if_false]
  by_cases m1 : matchesSecret pw p <;> by_cases m2 : matchesSecret tok p <;>
    simp [m1, m2]

/-- C10 witness: the same password with two different usernames
(`u:pw` and `x:pw`) both authenticate. -/
theorem c10_username_ignored_wit :
    check_auth (some "pw".data) none (some "Basic dTpwdw==".data)
      = .success ∧
    check_auth (some "pw".data) none (some "Basic eDpwdw==".data)
      = .success := by
  constructor
  · exact (c10_username_ignored (some "pw".data) none "Basic dTpwdw==".data
      "u".data "pw".data (by decide) (by decide)).mpr (by decide)
  · exact (c10_username_ignored (some "pw".data) none "Basic eDpwdw==".data
      "x".data "pw".data (by decide) (by decide)).mpr (by decide)

/-! ## Claim C9 — PIN secrecy -/

/-- A hash function for the concrete witnesses (the abstract digest
instantiated with the identity). -/
def idHash : PyStr → PyStr := fun s => s

/-- A PIN-protected live row for the C9 witness. -/
def c9rec : ShareRec :=
  { token := "t".data, file_path := "/d/f".data, file_name := "f".data,
    created_at := 0, expires_at := 100, max_downloads := 0,
    download_count := 0, pin_hash := some "1234".data, creator_ip := none,
    revoked := false }

/-- C9: the mint result is identical for any two PINs (so it cannot
contain the PIN — only the has-PIN flag); the stored row keeps the
PIN's hash, not the PIN; a wrong PIN makes `validate_link` answer
`InvalidPin` (not `Active`); and on an `InvalidPin` answer the download
handler leaves the store — in particular every download counter —
unchanged. -/
theorem c9_pin_secrecy :
    (∀ h store fp eh md p1 p2 cip tk now,
       (generate_share_link h store fp eh md (some p1) cip tk now).2 =
       (generate_share_link h store fp eh md (some p2) cip tk now).2) ∧
    (∀ h store fp eh md pv cip tk now, pv ≠ [] →
       (generate_share_link h store fp eh md (some pv) cip tk now).1 =
         store ++ [{ token := tk, file_path := fp,
                     file_name := pyBasename fp, created_at := now,
                     expires_at := now + eh * 3600, max_downloads := md,
                     download_count := 0, pin_hash := some (h pv),
                     creator_ip := cip, revoked := false }]) ∧
    (∀ h store tok pv now row ph,
       store.find? (fun r => r.token = tok && !r.revoked) = some row →
       ¬(now > row.expires_at) →
       ¬(row.max_downloads > 0 ∧ row.download_count ≥ row.max_downloads) →
       row.pin_hash = some ph → ph ≠ [] → pv ≠ [] → h pv ≠ ph →
       validate_link h store tok (some pv) now = .invalidPin) ∧
    (∀ h store tok pin now fe,
       validate_link h store tok pin now = .invalidPin →
       (shareDownload h store tok pin now fe).1 = .pinErrorPage ∧
       (shareDownload h store tok pin now fe).2 = store) := by
  refine ⟨?_, ?_, ?_, ?_⟩
  · intro h store fp eh md p1 p2 cip tk now
    rfl
  · intro h store fp eh md pv cip tk now hne
    simp [generate_share_link, hne]
  · intro h store tok pv now row ph hf hexp hlim hph hphne hpvne hne
    unfold validate_link
    rw [hf]
    simp only [if_neg hexp, if_neg hlim, hph]
    have h1 : ph.isEmpty = false := by
      cases ph with
      | nil => exact absurd rfl hphne
      | cons a l => rfl
    have h2 : pyTruthy (some pv) = true := by
      cases pv with
      | nil => exact absurd rfl hpvne
      | cons a l => rfl
    simp [h1, h2, hne]
  · intro h store tok pin now fe hv
    unfold shareDownload
    rw [hv]
    exact ⟨rfl, rfl⟩

/-- C9 witness: the conjuncts at concrete inputs. -/
theorem c9_pin_secrecy_wit :
    (generate_share_link idHash [] "/d/f".data 24 1 (some "1234".data) none
       "tk".data 0).2 =
      (generate_share_link idHash [] "/d/f".data 24 1 (some "5678".data) none
       "tk".data 0).2 ∧
    validate_link idHash [c9rec] "t".data (some "9999".data) 0
      = .invalidPin ∧
    (shareDownload idHash [c9rec] "t".data (some "9999".data) 0
       (fun _ => true)).2 = [c9rec] := by
  refine ⟨c9_pin_secrecy.1 idHash [] "/d/f".data 24 1 "1234".data "5678".data
            none "tk".data 0, ?_, ?_⟩
  · exact c9_pin_secrecy.2.2.1 idHash [c9rec] "t".data "9999".data 0 c9rec
      "1234".data (by decide) (by decide) (by decide) rfl (by decide)
      (by decide) (by decide)
  · exact (c9_pin_secrecy.2.2.2 idHash [c9rec] "t".data (some "9999".data) 0
      (fun _ => true) (by decide)).2

/-! ## Claim C4 — the download-count invariant -/

/-- The §3 invariant for one row: `downloadCount ≤ maxDownloads`
whenever `maxDownloads > 0`. -/
def linkInv (r : ShareRec) : Prop :=
  r.max_downloads > 0 → r.download_count ≤ r.max_downloads

instance (r : ShareRec) : Decidable (linkInv r) := by
  unfold linkInv
  infer_instance

/-- The `UNIQUE` constraint on the `token` column. -/
def tokensUnique (store : Store) : Prop :=
  store.Pairwise (fun a b => a.token ≠ b.token)

/-- With unique tokens, any member sharing the token of `r` is `r`. -/
theorem token_match_unique {store : Store} {tok : PyStr} {r : ShareRec}
    (hu : tokensUnique store) (hr : r ∈ store) (ht : r.token = tok) :
    ∀ x ∈ store, x.token = tok → x = r := by
  intro x hx hxt
  by_contra hne
  have hsymm : Symmetric (fun a b : ShareRec => a.token ≠ b.token) :=
    fun a b hab => fun hba => hab hba.symm
  have := List.Pairwise.forall hsymm hu hx hr hne
  exact this (hxt.trans ht.symm)

/-- `bumpDownload` keeps the invariant of every row as long as every
row carrying the token is strictly below its limit. -/
theorem bump_inv (store : Store) (tok : PyStr)
    (hinv : ∀ x ∈ store, linkInv x)
    (hg : ∀ x ∈ store, x.token = tok → x.max_downloads > 0 →
      x.download_count < x.max_downloads) :
    ∀ y ∈ bumpDownload store tok, linkInv y := by
  intro y hy
  rw [bumpDownload, List.mem_map] at hy
  obtain ⟨z, hz, rfl⟩ := hy
  by_cases hzt : z.token = tok
  · simp only [hzt, if_true, linkInv]
    intro hmd
    have := hg z hz hzt (by simpa using hmd)
    omega
  · simp only [hzt, if_false]
    exact hinv z hz

/-- `markRevoked` touches no counter, hence keeps the invariant. -/
theorem markRevoked_inv (store : Store) (tok : PyStr)
    (hinv : ∀ x ∈ store, linkInv x) :
    ∀ x ∈ markRevoked store tok, linkInv x := by
  intro x hx
  rw [markRevoked, List.mem_map] at hx
  obtain ⟨z, hz, rfl⟩ := hx
  by_cases hzt : z.token = tok
  · simp only [hzt, if_true, linkInv]
    exact hinv z hz
  · simp only [hzt, if_false]
    exact hinv z hz

/-- `increment_download` keeps the invariant as long as every row
carrying the token is strictly below its limit (which is what
`validate_link` returning `Active` guarantees). -/
theorem increment_inv (store : Store) (tok : PyStr)
    (hinv : ∀ x ∈ store, linkInv x)
    (hg : ∀ x ∈ store, x.token = tok → x.max_downloads > 0 →
      x.download_count < x.max_downloads) :
    ∀ x ∈ increment_download store tok, linkInv x := by
  intro x hx
  unfold increment_download at hx
  split at hx
  · split at hx
    · exact markRevoked_inv _ _ (bump_inv store tok hinv hg) x hx
    · exact bump_inv store tok hinv hg x hx
  · exact bump_inv store tok hinv hg x hx

/-- With unique tokens, `find?` on a token-preserving map returns the
image of the (unique) row carrying the token. -/
theorem find_token_map (f : ShareRec → ShareRec)
    (hf : ∀ x, (f x).token = x.token) :
    ∀ (store : Store) (tok : PyStr) (r : ShareRec), tokensUnique store →
      r ∈ store → r.token = tok →
      (store.map f).find? (fun x => x.token = tok) = some (f r) := by
  intro store
  induction store with
  | nil => intro tok r _ hr; cases hr
  | cons a l ih =>
    intro tok r hu hr ht
    rw [List.map_cons, List.find?_cons]
    by_cases ha : a.token = tok
    · have hra : r = a := by
        cases hr with
        | head => rfl
        | tail _ hmem =>
          have := (List.pairwise_cons.mp hu).1 r hmem
          exact absurd (this (by rw [ht, ha])) (fun h => h)
      subst hra
      simp [hf, ha]
    · have hrl : r ∈ l := by
        cases hr with
        | head => exact absurd ht ha
        | tail _ hmem => exact hmem
      have : (decide ((f a).token = tok)) = false := by
        simp [hf, ha]
      rw [this]
      exact ih tok r (List.pairwise_cons.mp hu).2 hrl ht

/-- With unique tokens, the `fetchone` after the bump sees the bumped
unique row. -/
theorem find_bump (store : Store) (tok : PyStr) (r : ShareRec)
    (hu : tokensUnique store) (hr : r ∈ store) (ht : r.token = tok) :
    (bumpDownload store tok).find? (fun x => x.token = tok) =
      some { r with download_count := r.download_count + 1 } := by
  rw [bumpDownload,
    find_token_map _ (fun x => by split <;> rfl) store tok r hu hr ht]
  simp [ht]

/-- A row already at its download limit (it satisfies the invariant). -/
def c4atLimit : ShareRec :=
  { token := "t".data, file_path := "/d/f".data, file_name := "f".data,
    created_at := 0, expires_at := 100, max_downloads := 1,
    download_count := 1, pin_hash := none, creator_ip := none,
    revoked := true }

/-- C4 counterexample: `increment_download` applied to a row already at
its limit (`downloadCount = maxDownloads = 1`, a state satisfying the
invariant) bumps the count to 2 > 1 — the operation does not preserve
`downloadCount ≤ maxDownloads` unconditionally, as the claim states. -/
theorem c4_increment_at_limit_cex :
    linkInv c4atLimit ∧
    increment_download [c4atLimit] "t".data =
      [{ c4atLimit with download_count := 2 }] ∧
    ¬linkInv { c4atLimit with download_count := 2 } := by decide

/-- C4 (amended): `increment_download` preserves the invariant whenever
the token's (unique) row is strictly below its limit — the only
situation in which the handler invokes it, since it consumes only after
`validate_link` answers `Active`; when the new count reaches the limit
it sets `revoked` in the same transaction.  Mint and revoke preserve
the invariant unconditionally, and so does the whole share-download
handler step. -/
theorem c4_download_limit_inv :
    (∀ store tok r, tokensUnique store → (∀ x ∈ store, linkInv x) →
       r ∈ store → r.token = tok →
       (r.max_downloads > 0 → r.download_count < r.max_downloads) →
       ∀ x ∈ increment_download store tok, linkInv x) ∧
    (∀ store tok r, tokensUnique store → r ∈ store → r.token = tok →
       r.max_downloads > 0 → r.download_count + 1 ≥ r.max_downloads →
       ∃ x ∈ increment_download store tok, x.token = tok ∧
         x.download_count = r.download_count + 1 ∧ x.revoked = true) ∧
    (∀ h store fp eh md pin cip tk now, (∀ x ∈ store, linkInv x) →
       ∀ x ∈ (generate_share_link h store fp eh md pin cip tk now).1,
         linkInv x) ∧
    (∀ store tok, (∀ x ∈ store, linkInv x) →
       ∀ x ∈ (revoke_link store tok).1, linkInv x) ∧
    (∀ h store tok pin now fe, tokensUnique store →
       (∀ x ∈ store, linkInv x) →
       ∀ x ∈ (shareDownload h store tok pin now fe).2, linkInv x) := by
  refine ⟨?_, ?_, ?_, ?_, ?_⟩
  · intro store tok r hu hinv hr ht hlt
    apply increment_inv store tok hinv
    intro x hx hxt
    rw [token_match_unique hu hr ht x hx hxt]
    exact hlt
  · intro store tok r hu hr ht hmd hge
    have hinc : increment_download store tok =
        markRevoked (bumpDownload store tok) tok := by
      unfold increment_download
      simp only [find_bump store tok r hu hr ht]
      split
      · rfl
      · rename_i hcond
        exact absurd ⟨hmd, by simpa using hge⟩ hcond
    rw [hinc]
    refine ⟨{ r with download_count := r.download_count + 1,
                     revoked := true }, ?_, ht, rfl, rfl⟩
    rw [markRevoked, List.mem_map]
    refine ⟨{ r with download_count := r.download_count + 1 }, ?_, ?_⟩
    · rw [bumpDownload, List.mem_map]
      exact ⟨r, hr, by simp [ht]⟩
    · simp [ht]
  · intro h store fp eh md pin cip tk now hinv x hx
    unfold generate_share_link at hx
    rw [List.mem_append] at hx
    cases hx with
    | inl hx => exact hinv x hx
    | inr hx =>
      rw [List.mem_singleton] at hx
      subst hx
      intro _
      simp
  · intro store tok hinv x hx
    exact markRevoked_inv store tok hinv x hx
  · intro h store tok pin now fe hu hinv
    cases hv : validate_link h store tok pin now with
    | inactive =>
      unfold shareDownload
      simp only [hv]
      exact hinv
    | requiresPin fn =>
      unfold shareDownload
      simp only [hv]
      exact hinv
    | invalidPin =>
      unfold shareDownload
      simp only [hv]
      exact hinv
    | active fp fn dc md =>
      unfold shareDownload
      simp only [hv]
      split
      · apply increment_inv store tok hinv
        unfold validate_link at hv
        cases hf : store.find? (fun r => r.token = tok && !r.revoked) with
        | none =>
          simp only [hf] at hv
          cases hv
        | some row =>
          simp only [hf] at hv
          have hrowmem := List.mem_of_find?_eq_some hf
          have hrowp := List.find?_some hf
          have hrowt : row.token = tok := by
            simp only [Bool.and_eq_true, decide_eq_true_eq] at hrowp
            exact hrowp.1
          by_cases hexp : now > row.expires_at
          · rw [if_pos hexp] at hv
            cases hv
          · rw [if_neg hexp] at hv
            by_cases hlim : row.max_downloads > 0 ∧
                row.download_count ≥ row.max_downloads
            · rw [if_pos hlim] at hv
              cases hv
            · intro x hx hxt
              rw [token_match_unique hu hrowmem hrowt x hx hxt]
              intro hmd0
              by_contra hge
              exact hlim ⟨hmd0, by omega⟩
      · exact hinv

/-- A live one-download row for the C4 witness. -/
def c4w : ShareRec :=
  { token := "t".data, file_path := "/d/f".data, file_name := "f".data,
    created_at := 0, expires_at := 100, max_downloads := 1,
    download_count := 0, pin_hash := none, creator_ip := none,
    revoked := false }

/-- C4 witness: the amended theorem at a concrete one-download link. -/
theorem c4_download_limit_inv_wit :
    (∀ x ∈ increment_download [c4w] "t".data, linkInv x) ∧
    (∃ x ∈ increment_download [c4w] "t".data, x.token = "t".data ∧
       x.download_count = 1 ∧ x.revoked = true) := by
  constructor
  · exact c4_download_limit_inv.1 [c4w] "t".data c4w
      (List.pairwise_singleton _ _) (by decide) (by decide) (by decide)
      (by decide)
  · exact c4_download_limit_inv.2.1 [c4w] "t".data c4w
      (List.pairwise_singleton _ _) (by decide) (by decide) (by decide)
      (by decide)

/-! ## Claim C6 — validate_link case analysis -/

/-- Modelled from the claim's words (C6): look up by token; when no
record exists or the record is inactive (revoked, past expiry, or at a
positive download limit) answer `Inactive`; when a PIN hash is set and
no PIN was supplied answer `RequiresPin`; when the supplied PIN's hash
mismatches answer `InvalidPin`; otherwise `Active` with the record. -/
def validateSpec (h : PyStr → PyStr) (store : Store) (token : PyStr)
    (pin : Option PyStr) (now : Nat) : ValidateResult :=
  match store.find? (fun r => r.token = token) with
  | none => .inactive
  | some row =>
    if row.revoked then .inactive
    else if now > row.expires_at then .inactive
    else if row.max_downloads > 0 ∧ row.download_count ≥ row.max_downloads
      then .inactive
    else
      match row.pin_hash with
      | some ph =>
        if ph.isEmpty then
          .active row.file_path row.file_name row.download_count
            row.max_downloads
        else if !pyTruthy pin then .requiresPin row.file_name
        else if h (pin.getD []) ≠ ph then .invalidPin
        else .active row.file_path row.file_name row.download_count
          row.max_downloads
      | none =>
        .active row.file_path row.file_name row.download_count
          row.max_downloads

/-- When no row carries the token, the revoked-filtering lookup also
finds nothing. -/
theorem find_and_none (store : Store) (tok : PyStr)
    (hf : store.find? (fun r => r.token = tok) = none) :
    store.find? (fun r => r.token = tok && !r.revoked) = none := by
  rw [List.find?_eq_none] at hf ⊢
  intro x hx
  have := hf x hx
  simp only [decide_eq_true_eq] at this
  simp [this]

/-- With unique tokens, when the row carrying the token is revoked, the
revoked-filtering lookup finds nothing. -/
theorem find_active_none (store : Store) (tok : PyStr) (row : ShareRec)
    (hu : tokensUnique store)
    (hf : store.find? (fun r => r.token = tok) = some row)
    (hrev : row.revoked = true) :
    store.find? (fun r => r.token = tok && !r.revoked) = none := by
  have hmem := List.mem_of_find?_eq_some hf
  have hp := List.find?_some hf
  have ht : row.token = tok := by simpa using hp
  rw [List.find?_eq_none]
  intro x hx hcontra
  simp only [Bool.and_eq_true, decide_eq_true_eq, Bool.not_eq_true'] at hcontra
  have hx' := token_match_unique hu hmem ht x hx hcontra.1
  rw [hx'] at hcontra
  rw [hrev] at hcontra
  cases hcontra.2

/-- With unique tokens, when the row carrying the token is not revoked,
both lookups find it. -/
theorem find_and_eq (store : Store) (tok : PyStr) (row : ShareRec) :
    tokensUnique store →
    store.find? (fun r => r.token = tok) = some row →
    row.revoked = false →
    store.find? (fun r => r.token = tok && !r.revoked) = some row := by
  induction store with
  | nil => intro _ hf _; cases hf
  | cons a l ih =>
    intro hu hf hrev
    rw [List.find?_cons] at hf ⊢
    by_cases ha : a.token = tok
    · simp [ha] at hf
      subst hf
      simp [ha, hrev]
    · simp [ha] at hf ⊢
      exact ih (List.pairwise_cons.mp hu).2 hf hrev

/-- C6: with the schema's unique tokens, `validate_link` answers
exactly as the claim describes — `Inactive` for a missing or inactive
record (revoked, expired, or at a positive limit), `RequiresPin` for a
set PIN hash and no supplied PIN, `InvalidPin` for a mismatching PIN
hash, and `Active` with the record otherwise. -/
theorem c6_validate_matches_spec :
    ∀ h store token pin now, tokensUnique store →
      validate_link h store token pin now =
        validateSpec h store token pin now := by
  intro h store token pin now hu
  unfold validate_link validateSpec
  cases hf : store.find? (fun r => r.token = token) with
  | none =>
    simp only [hf, find_and_none store token hf]
  | some row =>
    by_cases hrev : row.revoked = true
    · simp only [hf, find_active_none store token row hu hf hrev, hrev,
        if_true]
    · have hrev' : row.revoked = false := by simpa using hrev
      simp only [hf, find_and_eq store token row hu hf hrev', hrev',
        Bool.false_eq_true, if_false]

/-- A PIN-protected row for the C6 witness. -/
def c6rec : ShareRec :=
  { token := "t".data, file_path := "/d/f".data, file_name := "f".data,
    created_at := 0, expires_at := 100, max_downloads := 2,
    download_count := 1, pin_hash := some "1234".data, creator_ip := none,
    revoked := false }

/-- C6 witness: the refinement at a one-row store, plus the concrete
values it takes in each PIN situation. -/
theorem c6_validate_matches_spec_wit :
    validate_link idHash [c6rec] "t".data none 0 =
      validateSpec idHash [c6rec] "t".data none 0 ∧
    validate_link idHash [c6rec] "t".data none 0 =
      .requiresPin "f".data ∧
    validate_link idHash [c6rec] "t".data (some "9".data) 0 = .invalidPin ∧
    validate_link idHash [c6rec] "t".data (some "1234".data) 0 =
      .active "/d/f".data "f".data 1 2 ∧
    validate_link idHash [c6rec] "t".data (some "1234".data) 200 =
      .inactive :=
  ⟨c6_validate_matches_spec idHash [c6rec] "t".data none 0
     (List.pairwise_singleton _ _),
   by decide, by decide, by decide, by decide⟩

/-! ## Claim C7 — the origin guard -/

/-- C7: `check_csrf` passes every non-state-mutating method; for
POST/PUT/DELETE it passes when neither Origin nor Referer carries a
value, fails when one of them does but Host carries none, and otherwise
passes exactly when every present Origin and Referer value contains the
Host value as a substring.  (`pyTruthy h = true` is "the header is
present with a non-empty value", matching the source's truthiness
tests.) -/
theorem c7_csrf_characterization :
    ∀ command origin referer host,
      check_csrf command origin referer host = true ↔
        (¬(command = "POST".data ∨ command = "PUT".data ∨
           command = "DELETE".data) ∨
         (pyTruthy origin = false ∧ pyTruthy referer = false) ∨
         (pyTruthy host = true ∧
          (pyTruthy origin = true →
            pyContains (origin.getD []) (host.getD []) = true) ∧
          (pyTruthy referer = true →
            pyContains (referer.getD []) (host.getD []) = true))) := by
  intro command origin referer host
  unfold check_csrf
  split_ifs with h1 h2 h3 h4 h5 <;> simp_all

/-- C7 witness: the spec's own three examples — cross-site Origin
rejected, same-host Origin accepted, absent Origin/Referer accepted. -/
theorem c7_csrf_characterization_wit :
    check_csrf "POST".data (some "http://evil.example".data) none
      (some "myhost:8080".data) = false ∧
    check_csrf "POST".data (some "http://myhost:8080".data) none
      (some "myhost:8080".data) = true ∧
    check_csrf "POST".data none none none = true := by
  refine ⟨?_, ?_, ?_⟩
  · cases hc : check_csrf "POST".data (some "http://evil.example".data) none
      (some "myhost:8080".data) with
    | false => rfl
    | true =>
      exact absurd ((c7_csrf_characterization "POST".data
        (some "http://evil.example".data) none
        (some "myhost:8080".data)).mp hc) (by decide)
  · exact (c7_csrf_characterization "POST".data
      (some "http://myhost:8080".data) none
      (some "myhost:8080".data)).mpr (by decide)
  · exact (c7_csrf_characterization "POST".data none none none).mpr
      (by decide)

/-! ## Claim C8 — upload target resolution -/

/-- `p` is a single normal (non-dot) component directly inside `dir`. -/
def insideDir (dir p : PyStr) : Prop :=
  ∃ name, p = dir ++ '/' :: name ∧ name ≠ [] ∧ '/' ∉ name ∧
    name ≠ ['.'] ∧ name ≠ ['.', '.']

/-- The sanitizer's allow-list excludes the path separator. -/
theorem secure_filename_no_slash (s : PyStr) : '/' ∉ secure_filename s := by
  intro hm
  rw [secure_filename, List.mem_filter] at hm
  exact absurd hm.2 (by decide)

theorem digitChar_ne_slash (m : Nat) : Nat.digitChar m ≠ '/' := by
  by_cases hm : m < 16
  · interval_cases m <;> decide
  · intro h
    unfold Nat.digitChar at h
    iterate 16 rw [if_neg (by omega)] at h
    cases h

theorem toDigitsCore_no_slash :
    ∀ (fuel n : Nat) (acc : List Char), '/' ∉ acc →
      '/' ∉ Nat.toDigitsCore 10 fuel n acc := by
  intro fuel
  induction fuel with
  | zero => intro n acc h; simpa [Nat.toDigitsCore] using h
  | succ f ih =>
    intro n acc h
    simp only [Nat.toDigitsCore]
    split
    · intro hm
      rcases List.mem_cons.mp hm with hc | hc
      · exact digitChar_ne_slash (n % 10) hc.symm
      · exact h hc
    · apply ih
      intro hm
      rcases List.mem_cons.mp hm with hc | hc
      · exact digitChar_ne_slash (n % 10) hc.symm
      · exact h hc

/-- The decimal digits of a counter contain no path separator. -/
theorem repr_no_slash (n : Nat) : '/' ∉ (Nat.repr n).data := by
  have h : (Nat.repr n).data = Nat.toDigitsCore 10 (n + 1) n [] := rfl
  rw [h]
  exact toDigitsCore_no_slash (n + 1) n [] (by simp)

theorem splitLastChar_eq_none {c : Char} :
    ∀ {l : List Char}, c ∉ l → splitLastChar c l = none := by
  intro l
  induction l with
  | nil => intro _; rfl
  | cons x xs ih =>
    intro h
    simp only [splitLastChar]
    rw [ih (fun hm => h (List.mem_cons_of_mem x hm))]
    have hx : ¬x = c := fun he => h (he ▸ List.mem_cons_self x xs)
    simp [hx]

theorem splitLastChar_append (c : Char) (l1 l2 : List Char) (h : c ∉ l2) :
    splitLastChar c (l1 ++ c :: l2) = some (l1, l2) := by
  induction l1 with
  | nil =>
    simp only [List.nil_append, splitLastChar]
    rw [splitLastChar_eq_none h]
    simp
  | cons x xs ih =>
    simp [splitLastChar, ih]

theorem splitLastChar_decomp (c : Char) :
    ∀ (l a b : List Char), splitLastChar c l = some (a, b) →
      l = a ++ c :: b := by
  intro l
  induction l with
  | nil => intro a b h; cases h
  | cons x xs ih =>
    intro a b h
    simp only [splitLastChar] at h
    cases hs : splitLastChar c xs with
    | some q =>
      obtain ⟨qa, qb⟩ := q
      rw [hs] at h
      injection h with h'
      have h1 : x :: qa = a := congrArg Prod.fst h'
      have h2 : qb = b := congrArg Prod.snd h'
      subst h1
      subst h2
      rw [List.cons_append]
      rw [← ih qa qb hs]
    | none =>
      rw [hs] at h
      by_cases hx : x = c
      · rw [if_pos hx] at h
        injection h with h'
        have h1 : ([] : List Char) = a := congrArg Prod.fst h'
        have h2 : xs = b := congrArg Prod.snd h'
        subst h1
        subst h2
        rw [hx]
        rfl
      · rw [if_neg hx] at h
        cases h

/-- `os.path.splitext` on a path whose final component is `name`
splits inside `name`. -/
theorem pySplitext_decomp (dir name : PyStr) (hns : '/' ∉ name) :
    ∃ a b, pySplitext (dir ++ '/' :: name) = (dir ++ '/' :: a, b) ∧
      a ++ b = name ∧ (∀ ch ∈ a, ch ∈ name) ∧
      (∀ ch ∈ b, ch = '.' ∨ ch ∈ name) := by
  unfold pySplitext
  simp only [splitLastChar_append '/' dir name hns]
  cases hd : splitLastChar '.' name with
  | none =>
    exact ⟨name, [], rfl, by simp, fun ch hc => hc, by simp⟩
  | some q =>
    obtain ⟨a0, b0⟩ := q
    dsimp only
    have hdec := splitLastChar_decomp '.' name a0 b0 hd
    by_cases hall : a0.all (fun ch => ch = '.')
    · rw [if_pos hall]
      exact ⟨name, [], rfl, by simp, fun ch hc => hc, by simp⟩
    · rw [if_neg hall]
      refine ⟨a0, '.' :: b0, rfl, hdec.symm, ?_, ?_⟩
      · intro ch hc
        rw [hdec]
        exact List.mem_append_left _ hc
      · intro ch hc
        rcases List.mem_cons.mp hc with hc | hc
        · exact Or.inl hc
        · refine Or.inr ?_
          rw [hdec]
          exact List.mem_append_right _ (List.mem_cons_of_mem _ hc)

/-- Whatever the anti-overwrite loop returns does not exist yet, and is
either the starting path or a numerically suffixed variant. -/
theorem dedup_shape (fs : List PyStr) (base ext : PyStr) :
    ∀ (fuel k : Nat) (cur p : PyStr),
      dedupLoop fs base ext fuel k cur = some p →
      p ∉ fs ∧
      (p = cur ∨ ∃ j, p = base ++ '_' :: (Nat.repr j).data ++ ext) := by
  intro fuel
  induction fuel with
  | zero => intro k cur p h; cases h
  | succ f ih =>
    intro k cur p h
    rw [dedupLoop] at h
    by_cases hc : cur ∈ fs
    · rw [if_pos hc] at h
      have hr := ih (k + 1) _ p h
      exact ⟨hr.1, Or.inr (hr.2.elim (fun he => ⟨k, he⟩) id)⟩
    · rw [if_neg hc] at h
      injection h with h'
      subst h'
      exact ⟨hc, Or.inl rfl⟩

/-- C8: every path `get_upload_path` resolves is a fresh single normal
component inside the served directory (given the filesystem facts that
`dir/.` and `dir/..` always exist); when the sanitized name collides
with an existing path the result is a numerically suffixed variant; and
an empty sanitized name resolves to no path at all. -/
theorem c8_upload_path_safe :
    ∀ fs isdirT dir filename fuel,
      (dir ++ '/' :: ['.']) ∈ fs → (dir ++ '/' :: ['.', '.']) ∈ fs →
      (∀ p, get_upload_path fs isdirT dir filename fuel = some p →
         insideDir dir p ∧ p ∉ fs ∧
         ((dir ++ '/' :: secure_filename (pyBasename filename)) ∈ fs →
            ∃ j, p =
              (pySplitext (dir ++ '/' ::
                 secure_filename (pyBasename filename))).1 ++
              '_' :: (Nat.repr j).data ++
              (pySplitext (dir ++ '/' ::
                 secure_filename (pyBasename filename))).2)) ∧
      (secure_filename (pyBasename filename) = [] →
         get_upload_path fs isdirT dir filename fuel = none) := by
  intro fs isdirT dir filename fuel hdot hdotdot
  constructor
  · intro p hp
    unfold get_upload_path at hp
    by_cases hce : (secure_filename (pyBasename filename)).isEmpty
    · rw [if_pos hce] at hp
      cases hp
    · rw [if_neg hce] at hp
      cases isdirT with
      | false => simp at hp
      | true =>
        rw [if_neg (by simp)] at hp
        have hne : secure_filename (pyBasename filename) ≠ [] := by
          intro he
          rw [he] at hce
          exact hce rfl
        have hns : '/' ∉ secure_filename (pyBasename filename) :=
          secure_filename_no_slash _
        obtain ⟨a, b, hsplit, hab, hamem, hbmem⟩ :=
          pySplitext_decomp dir (secure_filename (pyBasename filename)) hns
        rw [hsplit] at hp
        have hshape := dedup_shape fs _ _ fuel 1 _ p hp
        obtain ⟨hpnot, hcase⟩ := hshape
        have hmain : insideDir dir p := by
          cases hcase with
          | inl he =>
            subst he
            refine ⟨secure_filename (pyBasename filename), rfl, hne, hns,
              ?_, ?_⟩
            · intro hdot1
              rw [hdot1] at hpnot
              exact hpnot hdot
            · intro hdot2
              rw [hdot2] at hpnot
              exact hpnot hdotdot
          | inr he =>
            obtain ⟨j, hj⟩ := he
            refine ⟨a ++ '_' :: (Nat.repr j).data ++ b, ?_, by simp, ?_,
              ?_, ?_⟩
            · rw [hj]
              simp
            · intro hm
              rcases List.mem_append.mp hm with hm | hm
              · rcases List.mem_append.mp hm with hm | hm
                · exact hns (hamem _ hm)
                · rcases List.mem_cons.mp hm with hm | hm
                  · cases hm
                  · exact repr_no_slash j hm
              · rcases hbmem _ hm with hm | hm
                · cases hm
                · exact hns (hm)
            · intro hcontra
              have hu : '_' ∈ a ++ '_' :: (Nat.repr j).data ++ b := by
                refine List.mem_append_left _ ?_
                exact List.mem_append_right _ (List.mem_cons_self _ _)
              rw [hcontra] at hu
              rcases List.mem_singleton.mp hu with h
              cases h
            · intro hcontra
              have hu : '_' ∈ a ++ '_' :: (Nat.repr j).data ++ b := by
                refine List.mem_append_left _ ?_
                exact List.mem_append_right _ (List.mem_cons_self _ _)
              rw [hcontra] at hu
              rcases List.mem_cons.mp hu with h | h
              · cases h
              · rcases List.mem_singleton.mp h with h'
                cases h'
        refine ⟨hmain, hpnot, ?_⟩
        intro hcol
        cases hcase with
        | inl he =>
          rw [he] at hpnot
          exact absurd hcol hpnot
        | inr he =>
          obtain ⟨j, hj⟩ := he
          refine ⟨j, ?_⟩
          rw [hsplit]
          exact hj
  · intro he
    unfold get_upload_path
    rw [if_pos (by rw [he]; rfl)]

/-- C8 witness: `"../../etc/passwd"` resolves to `/d/passwd` inside the
served directory, and a second upload of `passwd` resolves to the
fresh, suffixed `/d/passwd_1`. -/
theorem c8_upload_path_safe_wit :
    insideDir "/d".data "/d/passwd".data ∧
    "/d/passwd".data ∉ (["/d/.".data, "/d/..".data] : List PyStr) ∧
    insideDir "/d".data "/d/passwd_1".data ∧
    "/d/passwd_1".data ∉
      (["/d/.".data, "/d/..".data, "/d/passwd".data] : List PyStr) := by
  have h1 := (c8_upload_path_safe ["/d/.".data, "/d/..".data] true "/d".data
    "../../etc/passwd".data 4 (by decide) (by decide)).1 "/d/passwd".data
    (by decide)
  have h2 := (c8_upload_path_safe
    ["/d/.".data, "/d/..".data, "/d/passwd".data] true "/d".data
    "passwd".data 4 (by decide) (by decide)).1 "/d/passwd_1".data
    (by decide)
  exact ⟨h1.1, h1.2.1, h2.1, h2.2.1⟩

end ShareCLI
